import Mathlib

/-!
Verification of the modinfo_7dtd library: a reader/writer for the two
ModInfo.xml layouts (legacy `ModInfo` root, current `xml` root) used by
7 Days to Die modlets, together with the semantic-version manipulation
it depends on.

The development shallowly embeds `src/lib.rs`, `src/impls.rs` and
`src/version_tools.rs`.  Rust panics (`unwrap`, `panic!`, map indexing)
are modelled by an explicit `Outcome.panic` constructor; `Result` errors
by `Outcome.err`.  The external crates `lenient_semver` / `semver`
(version grammar) and `quick_xml` (event tokenizer) are not part of the
repository; their behaviour is modelled from the specification and is
marked as such on the corresponding definitions.
-/

namespace Modinfo7dtd

/-- Model of `semver::Version`: major/minor/patch numbers plus the
prerelease and build-metadata strings (`Prerelease::EMPTY` /
`BuildMetadata::EMPTY` are the empty string). -/
structure SemVer where
  major : Nat
  minor : Nat
  patch : Nat
  pre : String
  build : String
deriving DecidableEq, Repr

/-- Display form of a `semver::Version`: `M.m.p[-pre][+build]`. -/
def SemVer.render (v : SemVer) : String :=
  toString v.major ++ "." ++ toString v.minor ++ "." ++ toString v.patch
    ++ (if v.pre = "" then "" else "-" ++ v.pre)
    ++ (if v.build = "" then "" else "+" ++ v.build)

/-- Outcome of running a piece of Rust code that can panic (`unwrap`,
`panic!`, indexing a map at a missing key) or return a library error. -/
inductive Outcome (ε : Type) (α : Type)
  | ok (a : α)
  | err (e : ε)
  | panic (msg : String)
deriving DecidableEq, Repr

def Outcome.toOption {ε α : Type} : Outcome ε α → Option α
  | .ok a => some a
  | _ => none

/-! ## Lenient semantic-version parsing

The repository delegates version parsing to the external
`lenient_semver` crate, whose source is not part of this repository.
The parser below is modelled from the specification of the Version
Engine: tolerant parsing of `[v]Major[.Minor[.Patch]][-pre][+build]`
into a structured version, with a textual error message on failure. -/

/-- The error cases the modelled lenient parser can report.  Messages
are single dot-free identifiers so that they can serve as diagnostic
build metadata, as the specification's fallback contract requires. -/
inductive LenientErr
  | emptyInput
  | expectedNumber
  | emptyIdentifier
  | unexpectedInput
deriving DecidableEq, Repr

def LenientErr.message : LenientErr → String
  | .emptyInput => "empty-input"
  | .expectedNumber => "expected-a-number"
  | .emptyIdentifier => "empty-identifier"
  | .unexpectedInput => "unexpected-input"

def isIdentChar (c : Char) : Bool :=
  c.isAlphanum || c = '-'

def digitsToNat (ds : List Char) : Nat :=
  ds.foldl (fun n c => 10 * n + (c.toNat - 48)) 0

/-- Parse a dot-separated run of identifier characters (used for the
prerelease and build components). -/
def takeIdents (cs : List Char) : List Char × List Char :=
  (cs.takeWhile (fun c => isIdentChar c || c = '.'),
   cs.dropWhile (fun c => isIdentChar c || c = '.'))

/-- Parse a run of decimal digits; fails when there is none. -/
def takeNumber (cs : List Char) : Except LenientErr (Nat × List Char) :=
  match cs.takeWhile Char.isDigit with
  | [] => .error .expectedNumber
  | ds => .ok (digitsToNat ds, cs.dropWhile Char.isDigit)

/-- Parse `.n` when present; otherwise default the component to 0. -/
def takeDotNumber (cs : List Char) : Except LenientErr (Nat × List Char) :=
  match cs with
  | '.' :: rest => takeNumber rest
  | _ => .ok (0, cs)

/-- Parse `-idents` when present; otherwise the component is empty. -/
def takePre (cs : List Char) : Except LenientErr (String × List Char) :=
  match cs with
  | '-' :: rest =>
    match takeIdents rest with
    | ([], _) => .error .emptyIdentifier
    | (ids, rest') => .ok (⟨ids⟩, rest')
  | _ => .ok ("", cs)

/-- Parse `+idents` when present; otherwise the component is empty. -/
def takeBuild (cs : List Char) : Except LenientErr (String × List Char) :=
  match cs with
  | '+' :: rest =>
    match takeIdents rest with
    | ([], _) => .error .emptyIdentifier
    | (ids, rest') => .ok (⟨ids⟩, rest')
  | _ => .ok ("", cs)

/-- Modelled from the spec: the external `lenient_semver` crate's
`parse_into::<semver::Version>`.  Tolerantly parses
`[v]Major[.Minor[.Patch]][-pre][+build]` after trimming surrounding
whitespace, coercing partial forms such as `1.2`, and reports a
diagnostic message on input it cannot accept. -/
def lenientParseE (s : String) : Except LenientErr SemVer := do
  let cs := (s.data.dropWhile Char.isWhitespace).reverse.dropWhile Char.isWhitespace |>.reverse
  if cs = [] then throw .emptyInput
  let cs := match cs with
    | 'v' :: rest => rest
    | 'V' :: rest => rest
    | _ => cs
  let (major, cs) ← takeNumber cs
  let (minor, cs) ← takeDotNumber cs
  let (patch, cs) ← takeDotNumber cs
  let (pre, cs) ← takePre cs
  let (build, cs) ← takeBuild cs
  if cs = [] then
    return { major := major, minor := minor, patch := patch, pre := pre, build := build }
  else
    throw .unexpectedInput

/-- The lenient parser with its error rendered as a message string, as
the Rust code consumes it. -/
def lenientParse (s : String) : Except String SemVer :=
  (lenientParseE s).mapError LenientErr.message

/-- The fallback used by `Modinfo::from_str` and
`VersionTools::set_version`: on parse failure, re-parse
`"0.0.0+" ++ message` and `unwrap` the result (the `unwrap` is the
`panic` case). -/
def lenientFallback (s : String) : Outcome Empty SemVer :=
  match lenientParse s with
  | .ok v => .ok v
  | .error e =>
    match lenientParse ("0.0.0+" ++ e) with
    | .ok v => .ok v
    | .error e' => .panic e'

/-! ## VersionTools (src/version_tools.rs) -/

/-- `VersionTools::set_version`: replaces the whole value via the
lenient parser with the `0.0.0+message` fallback (the receiver is
discarded). -/
def SemVer.set_version (_ : SemVer) (version : String) : Outcome Empty SemVer :=
  lenientFallback version

/-- `VersionTools::bump_major`. -/
def SemVer.bump_major (v : SemVer) : SemVer :=
  { v with major := v.major + 1, minor := 0, patch := 0, pre := "", build := "" }

/-- `VersionTools::bump_minor`. -/
def SemVer.bump_minor (v : SemVer) : SemVer :=
  { v with minor := v.minor + 1, patch := 0, pre := "", build := "" }

/-- `VersionTools::bump_patch`. -/
def SemVer.bump_patch (v : SemVer) : SemVer :=
  { v with patch := v.patch + 1, pre := "", build := "" }

/-- Check that a dot-separated identifier sequence has no empty chunk;
the `atStart` flag records whether we are at the start of a chunk. -/
def noEmptyChunksAux : Bool → List Char → Bool
  | atStart, [] => !atStart
  | atStart, c :: cs =>
    if c = '.' then
      if atStart then false else noEmptyChunksAux true cs
    else noEmptyChunksAux false cs

/-- Modelled from the spec: the external `semver` crate's
`Prerelease::new` / `BuildMetadata::new` grammar check — dot-separated,
nonempty identifiers made of alphanumerics and hyphens (the empty
string denotes the absent component and is accepted). -/
def validIdents (s : String) : Bool :=
  s = "" ||
    (s.data.all (fun c => isIdentChar c || c = '.') &&
     noEmptyChunksAux true s.data)

/-- `VersionTools::add_pre`: `self.pre = Prerelease::new(pre).unwrap()`;
the `unwrap` panics when the grammar is violated. -/
def SemVer.add_pre (v : SemVer) (pre : String) : Outcome Empty SemVer :=
  if validIdents pre then .ok { v with pre := pre }
  else .panic "invalid-prerelease-grammar"

/-- `VersionTools::add_build`: `self.build = BuildMetadata::new(build).unwrap()`;
the `unwrap` panics when the grammar is violated. -/
def SemVer.add_build (v : SemVer) (build : String) : Outcome Empty SemVer :=
  if validIdents build then .ok { v with build := build }
  else .panic "invalid-build-grammar"

/-! ## The Field Model (src/lib.rs data types) -/

/-- `ModinfoError` (src/lib.rs): the library's error taxonomy.  Payload
details (wrapped foreign errors) are reduced to strings. -/
inductive ModinfoError
  | IoError (msg : String)
  | InvalidVersion (msg : String)
  | FsNotFound
  | NoModinfo
  | NoModinfoAuthor
  | NoModinfoDescription
  | NoModinfoName
  | NoModinfoVersion
  | NoModinfoValueVersion
  | UnknownTag (tag : String)
  | WriteError
  | XMLError (msg : String)
deriving DecidableEq, Repr

/-- `ModinfoVersion`: which of the two file layouts is in use
(V1 = legacy `ModInfo` root, V2 = current `xml` root). -/
inductive ModinfoVersion
  | V1
  | V2
deriving DecidableEq, Repr

/-- `ModinfoValueMeta`: layout version plus the source file path. -/
structure ModinfoValueMeta where
  version : ModinfoVersion
  path : String
deriving DecidableEq, Repr

/-- `ModinfoValueMeta::default()`: V2 layout, empty path. -/
instance : Inhabited ModinfoValueMeta := ⟨⟨.V2, ""⟩⟩

/-- `ModinfoValue`: an optional string field. -/
structure ModinfoValue where
  value : Option String
deriving DecidableEq, Repr

instance : Inhabited ModinfoValue := ⟨⟨none⟩⟩

/-- `ModinfoValueVersion`: the version field plus the optional free-text
`compat` attribute. -/
structure ModinfoValueVersion where
  value : SemVer
  compat : Option String
deriving DecidableEq, Repr

/-- `ModinfoValueVersion::default()`: version 0.1.0, no compat. -/
instance : Inhabited ModinfoValueVersion := ⟨⟨⟨0, 1, 0, "", ""⟩, none⟩⟩

/-- `Modinfo`: the six metadata fields plus meta. -/
structure Modinfo where
  author : ModinfoValue
  description : ModinfoValue
  display_name : ModinfoValue
  name : ModinfoValue
  version : ModinfoValueVersion
  website : ModinfoValue
  meta : ModinfoValueMeta
deriving DecidableEq, Repr

/-- `Modinfo::default()`: every derived-`Default` field at its default. -/
def Modinfo.default : Modinfo :=
  { author := ⟨none⟩
    description := ⟨none⟩
    display_name := ⟨none⟩
    name := ⟨none⟩
    version := ⟨⟨0, 1, 0, "", ""⟩, none⟩
    website := ⟨none⟩
    meta := ⟨.V2, ""⟩ }

/-- `Modinfo::new()` (src/impls.rs): just `Modinfo::default()`. -/
def Modinfo.new : Modinfo := Modinfo.default

/-- ASCII lower-casing of a character (model of Rust `to_lowercase` on
the ASCII field/attribute names this library deals in). -/
def asciiLower (c : Char) : Char :=
  if 'A' ≤ c && c ≤ 'Z' then Char.ofNat (c.toNat + 32) else c

/-- ASCII upper-casing of a character. -/
def asciiUpper (c : Char) : Char :=
  if 'a' ≤ c && c ≤ 'z' then Char.ofNat (c.toNat - 32) else c

def lowerStr (s : String) : String := ⟨s.data.map asciiLower⟩

/-- `Modinfo::get_value_for` (src/impls.rs): case-insensitive named
access to the optional string fields; `version` is deliberately not
served here. -/
def Modinfo.get_value_for (m : Modinfo) (field : String) : Option String :=
  match lowerStr field with
  | "author" => m.author.value
  | "description" => m.description.value
  | "display_name" => m.display_name.value
  | "name" => m.name.value
  | "website" => m.website.value
  | "compat" => m.version.compat
  | _ => none

/-- `Modinfo::get_version` (src/impls.rs). -/
def Modinfo.get_version (m : Modinfo) : SemVer := m.version.value

/-! ## Title casing

`from_str` derives a provisional display name via the external
`convert_case` crate (`to_case(Case::Title)`), modelled here: words are
split at `_`/`-`/space delimiters and at lower-or-digit→upper
boundaries, then each word is capitalized and the words are joined with
single spaces. -/

def isWordDelim (c : Char) : Bool := c = '_' || c = '-' || c = ' '

def boundaryBefore (prev : Option Char) (c : Char) : Bool :=
  c.isUpper &&
    (match prev with
     | some p => p.isLower || p.isDigit
     | none => false)

/-- Split into words; `cur` is the current word accumulated in reverse. -/
def splitWordsAux : Option Char → List Char → List Char → List (List Char)
  | _, cur, [] => if cur = [] then [] else [cur.reverse]
  | prev, cur, c :: cs =>
    if isWordDelim c then
      if cur = [] then splitWordsAux none [] cs
      else cur.reverse :: splitWordsAux none [] cs
    else if boundaryBefore prev c then
      if cur = [] then splitWordsAux (some c) [c] cs
      else cur.reverse :: splitWordsAux (some c) [c] cs
    else
      splitWordsAux (some c) (c :: cur) cs

def capitalizeWord : List Char → List Char
  | [] => []
  | c :: cs => asciiUpper c :: cs.map asciiLower

def joinWithSpace : List (List Char) → List Char
  | [] => []
  | [w] => w
  | w :: ws => w ++ ' ' :: joinWithSpace ws

/-- Modelled from the spec: `convert_case`'s `to_case(Case::Title)`,
e.g. `SomeInternalName` becomes `Some Internal Name`. -/
def toTitleCase (s : String) : String :=
  ⟨joinWithSpace ((splitWordsAux none [] s.data).map capitalizeWord)⟩

/-! ## XML events (the quick_xml reader/writer interface) -/

/-- The events `Modinfo::from_str` consumes and `to_string` emits:
declarations, start tags (with attributes), self-closing ("empty")
elements, end tags, and text. -/
inductive XmlEvent
  | decl (content : String)
  | elemStart (name : String) (attrs : List (String × String))
  | elemEmpty (name : String) (attrs : List (String × String))
  | elemEnd (name : String)
  | txt (s : String)
deriving DecidableEq, Repr

/-- `parse_attributes` (src/lib.rs): collects an element's attributes
into a map keyed by the lower-cased attribute name. -/
def parse_attributes (attrs : List (String × String)) : List (String × String) :=
  attrs.map (fun kv => (lowerStr kv.1, kv.2))

/-- Lookup in the attribute map; later entries overwrite earlier ones,
as with `HashMap::insert`. -/
def attrLookup (m : List (String × String)) (k : String) : Option String :=
  (m.reverse.find? (fun kv => kv.1 = k)).map (fun kv => kv.2)

/-- One step of `Modinfo::from_str`'s event loop (src/lib.rs).  A start
tag classifies the layout from its name; a self-closing element has its
attributes collected, its `value` attribute read (a missing `value`
panics, as indexing the Rust `HashMap` does), and is then dispatched on
its case-sensitive element name; everything else is ignored. -/
def processEvent (m : Modinfo) (ev : XmlEvent) : Outcome ModinfoError Modinfo :=
  match ev with
  | .elemStart name _ =>
    .ok { m with meta := { m.meta with
            version := if name = "xml" then .V2 else .V1 } }
  | .elemEmpty name attrs =>
    let attributes := parse_attributes attrs
    match attrLookup attributes "value" with
    | none => .panic "missing-value-attribute"
    | some value =>
      match name with
      | "Author" => .ok { m with author := ⟨some value⟩ }
      | "Description" => .ok { m with description := ⟨some value⟩ }
      | "DisplayName" => .ok { m with display_name := ⟨some value⟩ }
      | "Name" =>
        let m' := if m.display_name.value = none
                  then { m with display_name := ⟨some (toTitleCase value)⟩ }
                  else m
        .ok { m' with name := ⟨some value⟩ }
      | "Version" =>
        let compat := attrLookup attributes "compat"
        match lenientFallback value with
        | .ok v => .ok { m with version := ⟨v, compat⟩ }
        | .panic p => .panic p
        | .err e => e.elim
      | "Website" => .ok { m with website := ⟨some value⟩ }
      | _ => .ok m
  | _ => .ok m

/-- The event loop of `Modinfo::from_str`, folded over the event list. -/
def fromEvents : Modinfo → List XmlEvent → Outcome ModinfoError Modinfo
  | m, [] => .ok m
  | m, ev :: evs =>
    match processEvent m ev with
    | .ok m' => fromEvents m' evs
    | .err e => .err e
    | .panic p => .panic p

/-! ## Tokenizer

`from_str` reads events through the external `quick_xml` crate with
`trim_text(true)`.  Modelled from the spec's description of the two
document shapes: declarations, start/end tags, self-closing elements
with `key="value"` attributes, and (trimmed) character data. -/

/-- Parse the `key="value"` attribute list inside a tag. -/
def parseAttrsText : Nat → List Char → Except String (List (String × String))
  | 0, _ => .error "fuel-exhausted"
  | fuel + 1, cs =>
    let cs := cs.dropWhile Char.isWhitespace
    match cs with
    | [] => .ok []
    | _ :: _ =>
      let key := cs.takeWhile (fun c => c ≠ '=' && !c.isWhitespace)
      match cs.dropWhile (fun c => c ≠ '=' && !c.isWhitespace) with
      | '=' :: '"' :: rest =>
        let v := rest.takeWhile (fun c => c ≠ '"')
        match rest.dropWhile (fun c => c ≠ '"') with
        | '"' :: rest' =>
          match parseAttrsText fuel rest' with
          | .ok more => .ok ((⟨key⟩, ⟨v⟩) :: more)
          | .error e => .error e
        | _ => .error "unterminated-attribute-value"
      | _ => .error "malformed-attribute"

/-- Split a document into events. -/
def tokenizeAux : Nat → List Char → Except String (List XmlEvent)
  | 0, _ => .error "fuel-exhausted"
  | fuel + 1, cs =>
    match cs with
    | [] => .ok []
    | '<' :: '?' :: rest =>
      let content := rest.takeWhile (fun c => c ≠ '>')
      match rest.dropWhile (fun c => c ≠ '>') with
      | '>' :: rest' =>
        match content.reverse with
        | '?' :: bodyRev =>
          match tokenizeAux fuel rest' with
          | .ok more => .ok (.decl ⟨bodyRev.reverse⟩ :: more)
          | .error e => .error e
        | _ => .error "malformed-declaration"
      | _ => .error "unterminated-declaration"
    | '<' :: '/' :: rest =>
      let nm := rest.takeWhile (fun c => c ≠ '>')
      match rest.dropWhile (fun c => c ≠ '>') with
      | '>' :: rest' =>
        match tokenizeAux fuel rest' with
        | .ok more => .ok (.elemEnd ⟨nm⟩ :: more)
        | .error e => .error e
      | _ => .error "unterminated-end-tag"
    | '<' :: rest =>
      let content := rest.takeWhile (fun c => c ≠ '>')
      match rest.dropWhile (fun c => c ≠ '>') with
      | '>' :: rest' =>
        match content.reverse with
        | '/' :: bodyRev =>
          let body := bodyRev.reverse
          let nm := body.takeWhile (fun c => !c.isWhitespace && c ≠ '/')
          match parseAttrsText (body.length + 1) (body.dropWhile (fun c => !c.isWhitespace && c ≠ '/')) with
          | .ok attrs =>
            match tokenizeAux fuel rest' with
            | .ok more => .ok (.elemEmpty ⟨nm⟩ attrs :: more)
            | .error e => .error e
          | .error e => .error e
        | _ =>
          let nm := content.takeWhile (fun c => !c.isWhitespace)
          match parseAttrsText (content.length + 1) (content.dropWhile (fun c => !c.isWhitespace)) with
          | .ok attrs =>
            match tokenizeAux fuel rest' with
            | .ok more => .ok (.elemStart ⟨nm⟩ attrs :: more)
            | .error e => .error e
          | .error e => .error e
      | _ => .error "unterminated-tag"
    | _ =>
      let t := cs.takeWhile (fun c => c ≠ '<')
      let rest := cs.dropWhile (fun c => c ≠ '<')
      let trimmed :=
        (t.dropWhile Char.isWhitespace).reverse.dropWhile Char.isWhitespace |>.reverse
      match tokenizeAux fuel rest with
      | .ok more => .ok (if trimmed = [] then more else .txt ⟨trimmed⟩ :: more)
      | .error e => .error e

/-- Modelled from the spec: the quick_xml event reader with
`trim_text(true)`. -/
def tokenize (s : String) : Except String (List XmlEvent) :=
  tokenizeAux (s.data.length + 1) s.data

/-- `Modinfo::from_str` (src/lib.rs): tokenize and run the event loop
over a default `Modinfo`.  A reader error is a `panic!` in the source,
so it is surfaced as `Outcome.panic`; the function otherwise always
returns `Ok`. -/
def Modinfo.from_str (xml : String) : Outcome ModinfoError Modinfo :=
  match tokenize xml with
  | .error e => .panic e
  | .ok evs => fromEvents Modinfo.default evs

/-! ## Serializer (`Modinfo::to_string`, src/lib.rs) -/

/-- The field keys iterated by `to_string`, Pascal-cased
(`to_case(Case::Pascal)` on the six known keys). -/
def pascalField : String → String
  | "name" => "Name"
  | "display_name" => "DisplayName"
  | "version" => "Version"
  | "description" => "Description"
  | "author" => "Author"
  | "website" => "Website"
  | s => s

/-- The `value` attribute text emitted for a field: the version field
uses the semver display form, the rest use `get_value_for` with the
empty string for an absent field. -/
def fieldValue (m : Modinfo) (field : String) : String :=
  match field with
  | "version" => m.get_version.render
  | _ => (m.get_value_for field).getD ""

/-- The self-closing element emitted for one field: a `value`
attribute, plus a `compat` attribute on the version element when a
compat string is present. -/
def fieldElem (m : Modinfo) (field : String) : XmlEvent :=
  .elemEmpty (pascalField field)
    ([("value", fieldValue m field)] ++
      (if field = "version" then
        match m.version.compat with
        | some c => [("compat", c)]
        | none => []
      else []))

/-- The declaration content emitted for a V2 document
(`BytesDecl::new("1.0", Some("UTF-8"), None)`). -/
def declContent : String := "xml version=\"1.0\" encoding=\"UTF-8\""

/-- The event sequence written by `to_string`: an XML declaration (V2
only), the root start tag (`xml` for V2, `ModInfo` for V1), one
self-closing element per field in the fixed order — skipping
`display_name` and `website` for V1 — and the root end tag. -/
def renderEvents (m : Modinfo) : List XmlEvent :=
  let is_v2 := m.meta.version = ModinfoVersion.V2
  let root := if is_v2 then "xml" else "ModInfo"
  let body := (["name", "display_name", "version", "description", "author", "website"].filter
      (fun f => is_v2 || (f ≠ "website" && f ≠ "display_name"))).map (fieldElem m)
  (if is_v2 then [.decl declContent] else []) ++
    (.elemStart root [] :: body) ++ [.elemEnd root]

def fmtAttrs (attrs : List (String × String)) : String :=
  attrs.foldl (fun acc kv => acc ++ " " ++ kv.1 ++ "=\"" ++ kv.2 ++ "\"") ""

def fmtEvent : XmlEvent → String
  | .decl c => "<?" ++ c ++ "?>"
  | .elemStart n a => "<" ++ n ++ fmtAttrs a ++ ">"
  | .elemEmpty n a => "<" ++ n ++ fmtAttrs a ++ "/>"
  | .elemEnd n => "</" ++ n ++ ">"
  | .txt s => s

/-- Modelled from the spec: quick_xml's `Writer::new_with_indent` with
two-space indentation — each event after the first is written on a new
line at the current nesting depth. -/
def formatEventsAux : Bool → Nat → List XmlEvent → String
  | _, _, [] => ""
  | first, level, e :: es =>
    let level' := match e with
      | .elemEnd _ => level - 1
      | _ => level
    let lead := if first then "" else "\n" ++ (⟨List.replicate (level' * 2) ' '⟩ : String)
    let nextLevel := match e with
      | .elemStart _ _ => level' + 1
      | _ => level'
    lead ++ fmtEvent e ++ formatEventsAux false nextLevel es

/-- `Modinfo::to_string` (the `ToString` impl in src/lib.rs). -/
def Modinfo.to_string (m : Modinfo) : String :=
  formatEventsAux true 0 (renderEvents m)

/-! ## The validating entry point (`parse`, src/lib.rs) -/

/-- `parse` (src/lib.rs): reads the file (the filesystem boundary is
abstracted into the `fileExists`/`contents` arguments), parses it with
`from_str`, then rejects a missing author, description or name, and a
version whose rendered string is empty, in that order; on success the
source path is recorded in the metadata. -/
def parse (fileExists : Bool) (contents : String) (path : String) :
    Outcome ModinfoError Modinfo :=
  if fileExists then
    match Modinfo.from_str contents with
    | .ok modinfo =>
      if modinfo.author.value = none then .err .NoModinfoAuthor
      else if modinfo.description.value = none then .err .NoModinfoDescription
      else if modinfo.name.value = none then .err .NoModinfoName
      else if modinfo.version.value.render = "" then .err .NoModinfoVersion
      else .ok { modinfo with meta := { modinfo.meta with path := path } }
    | .err e => .err e
    | .panic p => .panic p
  else .err .FsNotFound

/-! ## Fixtures and whitespace-stripped comparison -/

/-- Removal of all whitespace, as the repository's `strip_ws` test
helper (`split_whitespace().collect()`) does. -/
def stripWs (s : String) : String :=
  ⟨s.data.filter (fun c => !c.isWhitespace)⟩

/-- Whether a document parses and re-renders to the same
whitespace-stripped text. -/
def roundTrips (d : String) : Bool :=
  match Modinfo.from_str d with
  | .ok m => stripWs (Modinfo.to_string m) = stripWs d
  | _ => false

/-- The repository's V1 fixture (tests/fixtures/mod.rs). -/
def fixtureV1 : String :=
"
          <ModInfo>
              <Name value=\"SomeInternalName\" />
              <Version value=\"1.2.3\" compat=\"A99\" />
              <Description value=\"Mod to show format of ModInfo v1\" />
              <Author value=\"Name\" />
          </ModInfo>
      "

/-- The repository's V1 fixture without a compat attribute. -/
def fixtureV1NoCompat : String :=
"
          <ModInfo>
              <Name value=\"SomeInternalName\" />
              <Version value=\"1.2.3\" />
              <Description value=\"Mod to show format of ModInfo v1\" />
              <Author value=\"Name\" />
          </ModInfo>
      "

/-- The repository's V2 fixture. -/
def fixtureV2 : String :=
"
          <?xml version=\"1.0\" encoding=\"UTF-8\"?>
          <xml>
              <Name value=\"SomeInternalName\" />
              <DisplayName value=\"Official Mod Name\" />
              <Version value=\"2.3.4\" compat=\"A99\" />
              <Description value=\"Mod to show format of ModInfo v2\" />
              <Author value=\"Name\" />
              <Website value=\"HP\" />
          </xml>
      "

/-- The repository's V2 fixture without a compat attribute. -/
def fixtureV2NoCompat : String :=
"
          <?xml version=\"1.0\" encoding=\"UTF-8\"?>
          <xml>
              <Name value=\"SomeInternalName\" />
              <DisplayName value=\"Official Mod Name\" />
              <Version value=\"2.3.4\" />
              <Description value=\"Mod to show format of ModInfo v2\" />
              <Author value=\"Name\" />
              <Website value=\"HP\" />
          </xml>
      "

/-- Recognizer for explicit `DisplayName` data elements. -/
def isDisplayNameEvent : XmlEvent → Bool
  | .elemEmpty "DisplayName" _ => true
  | _ => false

/-! ## Theorems -/

/-- C6: each bump operation produces exactly the claimed version:
`bump_major` increments major and zeroes minor/patch, `bump_minor`
increments minor and zeroes patch, `bump_patch` increments patch; all
three clear the prerelease and build components and change nothing
else.  The spec's concrete example from `1.2.3-foo+bar` is included. -/
theorem C6_bump_semantics :
    ∀ v : SemVer,
      v.bump_major = ⟨v.major + 1, 0, 0, "", ""⟩ ∧
      v.bump_minor = ⟨v.major, v.minor + 1, 0, "", ""⟩ ∧
      v.bump_patch = ⟨v.major, v.minor, v.patch + 1, "", ""⟩ ∧
      (SemVer.mk 1 2 3 "foo" "bar").bump_major = ⟨2, 0, 0, "", ""⟩ ∧
      (SemVer.mk 1 2 3 "foo" "bar").bump_minor = ⟨1, 3, 0, "", ""⟩ ∧
      (SemVer.mk 1 2 3 "foo" "bar").bump_patch = ⟨1, 2, 4, "", ""⟩ :=
  fun _ => ⟨rfl, rfl, rfl, rfl, rfl, rfl⟩

/-- C10: the all-defaults instance has version exactly 0.1.0 (not the
0.0.0 sentinel) with empty prerelease/build and no compat, layout V2,
an empty source path, every optional string field absent, and
`get_value_for` answers `none` for every field name. -/
theorem C10_default_instance :
    Modinfo.new =
      { author := ⟨none⟩, description := ⟨none⟩, display_name := ⟨none⟩,
        name := ⟨none⟩, version := ⟨⟨0, 1, 0, "", ""⟩, none⟩,
        website := ⟨none⟩, meta := ⟨.V2, ""⟩ } ∧
    Modinfo.new.get_version = ⟨0, 1, 0, "", ""⟩ ∧
    Modinfo.new.get_version ≠ ⟨0, 0, 0, "", ""⟩ ∧
    ∀ field : String, Modinfo.new.get_value_for field = none := by
  refine ⟨rfl, rfl, by decide, ?_⟩
  intro field
  unfold Modinfo.get_value_for
  split <;> rfl

/-- C7 counterexample: on grammar-violating input the explicit
prerelease setter does not fail with a propagated `InvalidVersion`
error — its error channel is uninhabited (`Empty`, since the Rust
method returns `()`), and the `unwrap` inside it panics instead. -/
theorem C7_counterexample :
    SemVer.add_pre ⟨1, 2, 3, "", ""⟩ "b@d" = .panic "invalid-prerelease-grammar" := by
  decide

/-- C7 amended: on text violating the prerelease/build grammar,
`add_pre` and `add_build` abort with a panic (the `unwrap` on the
grammar-check result) rather than returning an `InvalidVersion` error
value; on grammar-conforming text they replace the corresponding
component. -/
theorem C7_add_pre_add_build (v : SemVer) (s : String) :
    (validIdents s = false →
      v.add_pre s = .panic "invalid-prerelease-grammar" ∧
      v.add_build s = .panic "invalid-build-grammar") ∧
    (validIdents s = true →
      v.add_pre s = .ok { v with pre := s } ∧
      v.add_build s = .ok { v with build := s }) := by
  constructor <;> intro h <;>
    simp [SemVer.add_pre, SemVer.add_build, h]

/-- C7 witness: both branches of the amended statement at concrete
inputs. -/
theorem C7_witness :
    validIdents "b@d" = false ∧
    SemVer.add_pre ⟨1, 2, 3, "", ""⟩ "b@d" = .panic "invalid-prerelease-grammar" ∧
    validIdents "rc.1" = true ∧
    SemVer.add_pre ⟨1, 2, 3, "", ""⟩ "rc.1" = .ok ⟨1, 2, 3, "rc.1", ""⟩ :=
  ⟨by decide,
   ((C7_add_pre_add_build ⟨1, 2, 3, "", ""⟩ "b@d").1 (by decide)).1,
   by decide,
   ((C7_add_pre_add_build ⟨1, 2, 3, "", ""⟩ "rc.1").2 (by decide)).1⟩

/-- C4: evaluation of the validating entry point.  A document missing
`Author`, `Description` or `Name` fails with the matching error, in
that order, and a fully populated document succeeds with the source
path recorded; but a document missing `Version` — which the claim and
the function's own documentation say must fail with
`NoModinfoVersion` — validates successfully with the default version
0.1.0, because the check tests whether the rendered version string is
empty and a rendered semver string is never empty. -/
theorem C4_validation_behavior :
    parse true "<ModInfo><Description value=\"b\"/><Name value=\"c\"/><Version value=\"1.2.3\"/></ModInfo>" "p"
      = .err .NoModinfoAuthor ∧
    parse true "<ModInfo><Author value=\"a\"/><Name value=\"c\"/><Version value=\"1.2.3\"/></ModInfo>" "p"
      = .err .NoModinfoDescription ∧
    parse true "<ModInfo><Author value=\"a\"/><Description value=\"b\"/><Version value=\"1.2.3\"/></ModInfo>" "p"
      = .err .NoModinfoName ∧
    parse true "<ModInfo><Author value=\"a\"/><Description value=\"b\"/><Name value=\"c\"/></ModInfo>" "p"
      = .ok { author := ⟨some "a"⟩, description := ⟨some "b"⟩,
              display_name := ⟨some "C"⟩, name := ⟨some "c"⟩,
              version := ⟨⟨0, 1, 0, "", ""⟩, none⟩, website := ⟨none⟩,
              meta := ⟨.V1, "p"⟩ } ∧
    parse true
        "<ModInfo><Author value=\"a\"/><Description value=\"b\"/><Name value=\"c\"/><Version value=\"1.2.3\"/></ModInfo>"
        "p"
      = .ok { author := ⟨some "a"⟩, description := ⟨some "b"⟩,
              display_name := ⟨some "C"⟩, name := ⟨some "c"⟩,
              version := ⟨⟨1, 2, 3, "", ""⟩, none⟩, website := ⟨none⟩,
              meta := ⟨.V1, "p"⟩ } := by
  refine ⟨by decide, by decide, by decide, by decide, by decide⟩

/-- C2 counterexample: a well-formed Current-layout document (root
`xml`, self-closing children each carrying a `value` attribute) that
parses successfully but does not re-render to its own
whitespace-stripped text: rendering reorders elements into the fixed
field order and synthesizes `DisplayName`, `Version`, `Description`
and `Website` elements absent from the input. -/
theorem C2_counterexample :
    (Modinfo.from_str "<xml><Author value=\"a\"/><Name value=\"b\"/></xml>").toOption.map
        (fun m => decide (stripWs (Modinfo.to_string m) =
          stripWs "<xml><Author value=\"a\"/><Name value=\"b\"/></xml>"))
      = some false := by
  decide

set_option maxRecDepth 20000 in
/-- C2 amended: the textual round-trip `render(parse(D))` equals `D`
under removal of all whitespace for the known-good Legacy and Current
fixture documents (with and without a compat attribute), as the
specification's fixture-based property states; it does not hold for
arbitrary well-formed documents. -/
theorem C2_fixture_round_trip :
    roundTrips fixtureV1 = true ∧
    roundTrips fixtureV1NoCompat = true ∧
    roundTrips fixtureV2 = true ∧
    roundTrips fixtureV2NoCompat = true := by
  refine ⟨by decide, by decide, by decide, by decide⟩

/-- C8 counterexample: a self-closing element with an unrecognized tag
name and no `value` attribute makes the whole parse abort (the `value`
lookup precedes the element-name dispatch), so an unrecognized element
is not always error-free. -/
theorem C8_counterexample :
    Modinfo.from_str "<xml><Unknown/></xml>" = .panic "missing-value-attribute" := by
  decide

/-- C8 amended: a self-closing element whose (case-sensitive) tag name
is outside the fixed vocabulary is silently ignored — all fields
unchanged, no error — provided it carries a `value` attribute (under
any key casing); without one it hits the same missing-`value` failure
as recognized elements. -/
theorem C8_unknown_element_ignored (m : Modinfo) (name : String)
    (attrs : List (String × String))
    (hname : name ∉ ["Name", "DisplayName", "Version", "Description", "Author", "Website"])
    (hval : (attrLookup (parse_attributes attrs) "value").isSome = true) :
    processEvent m (.elemEmpty name attrs) = .ok m := by
  obtain ⟨v, hv⟩ := Option.isSome_iff_exists.mp hval
  simp only [processEvent, hv]
  split <;> simp_all

/-- C8 witness: the amended statement at a concrete unknown element. -/
theorem C8_witness :
    "Unknown" ∉ ["Name", "DisplayName", "Version", "Description", "Author", "Website"] ∧
    (attrLookup (parse_attributes [("value", "x")]) "value").isSome = true ∧
    processEvent Modinfo.new (.elemEmpty "Unknown" [("value", "x")]) = .ok Modinfo.new :=
  ⟨by decide, by decide,
   C8_unknown_element_ignored Modinfo.new "Unknown" [("value", "x")] (by decide) (by decide)⟩

/-- A successful event step lets the fold continue from its result. -/
lemma fromEvents_cons_ok {m m₁ : Modinfo} {ev : XmlEvent} (evs : List XmlEvent)
    (hp : processEvent m ev = .ok m₁) :
    fromEvents m (ev :: evs) = fromEvents m₁ evs := by
  simp only [fromEvents]
  rw [hp]

/-- A panicking event step panics the whole fold. -/
lemma fromEvents_cons_panic {m : Modinfo} {ev : XmlEvent} {p : String} (evs : List XmlEvent)
    (hp : processEvent m ev = .panic p) :
    fromEvents m (ev :: evs) = .panic p := by
  simp only [fromEvents]
  rw [hp]

/-- A successful fold over `as ++ bs` splits into successful folds over
`as` and then `bs`. -/
lemma fromEvents_append_ok :
    ∀ (as : List XmlEvent) (m m' : Modinfo) (bs : List XmlEvent),
      fromEvents m (as ++ bs) = .ok m' →
      ∃ m₁, fromEvents m as = .ok m₁ ∧ fromEvents m₁ bs = .ok m'
  | [], m, m', bs, h => ⟨m, rfl, h⟩
  | ev :: as, m, m', bs, h => by
    cases hp : processEvent m ev with
    | ok m₁ =>
      rw [List.cons_append, fromEvents_cons_ok (as ++ bs) hp] at h
      obtain ⟨m₂, h1, h2⟩ := fromEvents_append_ok as m₁ m' bs h
      exact ⟨m₂, by rw [fromEvents_cons_ok as hp]; exact h1, h2⟩
    | err e =>
      rw [List.cons_append] at h
      simp only [fromEvents] at h
      rw [hp] at h
      exact Outcome.noConfusion h
    | panic p =>
      rw [List.cons_append, fromEvents_cons_panic (as ++ bs) hp] at h
      exact Outcome.noConfusion h

/-! ### C1: the lenient version-parse fallback -/

/-- Every message the modelled lenient parser can report is itself
valid build metadata, so the fallback re-parse of `0.0.0+message`
succeeds and stores the message in the build component. -/
lemma fallback_parse_ok (le : LenientErr) :
    lenientParse ("0.0.0+" ++ le.message) = .ok ⟨0, 0, 0, "", le.message⟩ := by
  cases le <;> rfl

/-- Any error string produced by `lenientParse` is the message of one
of the parser's error cases. -/
lemma lenientParse_error_shape {s e : String} (h : lenientParse s = .error e) :
    ∃ le : LenientErr, e = le.message := by
  unfold lenientParse at h
  cases h' : lenientParseE s with
  | ok v => rw [h'] at h; exact Except.noConfusion h
  | error le =>
    rw [h'] at h
    exact ⟨le, (Except.error.inj h).symm⟩

/-- On rejected input, the fallback deterministically returns the
sentinel `0.0.0` carrying the original error message as build
metadata — the inner `unwrap` never panics. -/
lemma lenientFallback_error {s e : String} (h : lenientParse s = .error e) :
    lenientFallback s = .ok ⟨0, 0, 0, "", e⟩ := by
  obtain ⟨le, rfl⟩ := lenientParse_error_shape h
  simp only [lenientFallback, h, fallback_parse_ok le]

/-- C1: for every version text the lenient parser rejects, both the
`from_str` Version-element branch and `VersionTools::set_version`
store the sentinel version `0.0.0` whose build-metadata field is the
original parser error message, and neither returns nor raises an
error. -/
theorem C1_version_fallback (s e : String) (v₀ : SemVer)
    (h : lenientParse s = .error e) :
    SemVer.set_version v₀ s = .ok ⟨0, 0, 0, "", e⟩ ∧
    fromEvents Modinfo.default
        [.elemStart "xml" [], .elemEmpty "Version" [("value", s)], .elemEnd "xml"] =
      .ok { Modinfo.default with version := ⟨⟨0, 0, 0, "", e⟩, none⟩ } := by
  have hf := lenientFallback_error h
  constructor
  · simpa [SemVer.set_version] using hf
  · have s1 : processEvent Modinfo.default (.elemStart "xml" []) = .ok Modinfo.default := rfl
    have s2 : processEvent Modinfo.default (.elemEmpty "Version" [("value", s)]) =
        (match lenientFallback s with
         | .ok v => Outcome.ok { Modinfo.default with version := ⟨v, none⟩ }
         | .panic p => .panic p
         | .err e => e.elim) := rfl
    rw [hf] at s2
    rw [fromEvents_cons_ok _ s1, fromEvents_cons_ok _ s2,
      fromEvents_cons_ok _ (rfl :
        processEvent { Modinfo.default with version := ⟨⟨0, 0, 0, "", e⟩, none⟩ }
          (.elemEnd "xml") = _)]
    rfl

/-- C1 witness: the fallback at the concrete rejected input
`garbage`. -/
theorem C1_witness :
    lenientParse "garbage" = .error "expected-a-number" ∧
    SemVer.set_version ⟨1, 2, 3, "a", "b"⟩ "garbage" = .ok ⟨0, 0, 0, "", "expected-a-number"⟩ ∧
    fromEvents Modinfo.default
        [.elemStart "xml" [], .elemEmpty "Version" [("value", "garbage")], .elemEnd "xml"] =
      .ok { Modinfo.default with version := ⟨⟨0, 0, 0, "", "expected-a-number"⟩, none⟩ } :=
  ⟨rfl,
   (C1_version_fallback "garbage" "expected-a-number" ⟨1, 2, 3, "a", "b"⟩ rfl).1,
   (C1_version_fallback "garbage" "expected-a-number" ⟨1, 2, 3, "a", "b"⟩ rfl).2⟩

/-! ### C3: display-name defaulting -/

/-- Any event other than an explicit `DisplayName` element preserves an
already-set display name. -/
lemma processEvent_display_name_preserved {m m' : Modinfo} {ev : XmlEvent} {v : String}
    (hev : isDisplayNameEvent ev = false)
    (hm : m.display_name.value = some v)
    (h : processEvent m ev = .ok m') :
    m'.display_name.value = some v := by
  cases ev with
  | elemStart name attrs =>
    simp only [processEvent] at h
    cases h
    simpa using hm
  | elemEmpty name attrs =>
    simp only [processEvent] at h
    split at h
    · exact Outcome.noConfusion h
    · split at h
      · cases h; simpa using hm
      · cases h; simpa using hm
      · simp [isDisplayNameEvent] at hev
      · rw [if_neg (by simp [hm])] at h
        cases h
        simpa using hm
      · split at h
        · cases h; simpa using hm
        · exact Outcome.noConfusion h
        · exact (‹Empty›).elim
      · cases h; simpa using hm
      · cases h; simpa using hm
  | elemEnd name =>
    simp only [processEvent] at h
    cases h
    simpa using hm
  | decl c =>
    simp only [processEvent] at h
    cases h
    simpa using hm
  | txt s =>
    simp only [processEvent] at h
    cases h
    simpa using hm

/-- A fold over events containing no explicit `DisplayName` element
preserves an already-set display name. -/
lemma fromEvents_display_name_preserved {v : String} :
    ∀ (bs : List XmlEvent) (m m' : Modinfo),
      (∀ ev ∈ bs, isDisplayNameEvent ev = false) →
      m.display_name.value = some v →
      fromEvents m bs = .ok m' →
      m'.display_name.value = some v
  | [], _, _, _, hm, h => by cases h; exact hm
  | ev :: bs, m, m', hno, hm, h => by
    cases hp : processEvent m ev with
    | ok m₁ =>
      rw [fromEvents_cons_ok bs hp] at h
      exact fromEvents_display_name_preserved bs m₁ m'
        (fun e he => hno e (List.mem_cons_of_mem _ he))
        (processEvent_display_name_preserved (hno ev (List.mem_cons_self _ _)) hm hp) h
    | err e =>
      simp only [fromEvents] at h
      rw [hp] at h
      exact Outcome.noConfusion h
    | panic p =>
      rw [fromEvents_cons_panic bs hp] at h
      exact Outcome.noConfusion h

/-- C3: (i) processing a `Name` element while `display_name` is unset
sets the provisional title-cased display name together with the name;
(ii) whenever an explicit `DisplayName` element occurs — anywhere in
the document, before or after `Name`, with no later `DisplayName` —
the final display name is exactly that element's `value`. -/
theorem C3_display_name :
    (∀ (m : Modinfo) (attrs : List (String × String)) (v : String),
        attrLookup (parse_attributes attrs) "value" = some v →
        m.display_name.value = none →
        processEvent m (.elemEmpty "Name" attrs) =
          .ok { m with display_name := ⟨some (toTitleCase v)⟩, name := ⟨some v⟩ }) ∧
    (∀ (m m' : Modinfo) (as bs : List XmlEvent) (attrs : List (String × String)) (v : String),
        attrLookup (parse_attributes attrs) "value" = some v →
        (∀ ev ∈ bs, isDisplayNameEvent ev = false) →
        fromEvents m (as ++ XmlEvent.elemEmpty "DisplayName" attrs :: bs) = .ok m' →
        m'.display_name.value = some v) := by
  constructor
  · intro m attrs v hv hnone
    simp [processEvent, hv, hnone]
  · intro m m' as bs attrs v hv hno h
    obtain ⟨m₁, _, h2⟩ := fromEvents_append_ok as m m' _ h
    have hdn : processEvent m₁ (.elemEmpty "DisplayName" attrs) =
        .ok { m₁ with display_name := ⟨some v⟩ } := by
      simp only [processEvent, hv]
    rw [fromEvents_cons_ok bs hdn] at h2
    exact fromEvents_display_name_preserved bs _ m' hno rfl h2

/-- C3 witness: a concrete `Name` step with no display name yet, and a
concrete document where `DisplayName` follows `Name` and wins. -/
theorem C3_witness :
    (attrLookup (parse_attributes [("value", "SomeInternalName")]) "value" =
        some "SomeInternalName" ∧
      Modinfo.new.display_name.value = none ∧
      processEvent Modinfo.new (.elemEmpty "Name" [("value", "SomeInternalName")]) =
        .ok { Modinfo.new with
                display_name := ⟨some (toTitleCase "SomeInternalName")⟩,
                name := ⟨some "SomeInternalName"⟩ }) ∧
    (fromEvents Modinfo.default
        [XmlEvent.elemStart "xml" [],
         XmlEvent.elemEmpty "Name" [("value", "Internal")],
         XmlEvent.elemEmpty "DisplayName" [("value", "Official Mod Name")],
         XmlEvent.elemEnd "xml"] =
      .ok { author := ⟨none⟩, description := ⟨none⟩,
            display_name := ⟨some "Official Mod Name"⟩, name := ⟨some "Internal"⟩,
            version := ⟨⟨0, 1, 0, "", ""⟩, none⟩, website := ⟨none⟩,
            meta := ⟨.V2, ""⟩ } ∧
      ({ author := ⟨none⟩, description := ⟨none⟩,
         display_name := ⟨some "Official Mod Name"⟩, name := ⟨some "Internal"⟩,
         version := ⟨⟨0, 1, 0, "", ""⟩, none⟩, website := ⟨none⟩,
         meta := ⟨.V2, ""⟩ } : Modinfo).display_name.value = some "Official Mod Name") :=
  ⟨⟨by decide, rfl,
    C3_display_name.1 Modinfo.new [("value", "SomeInternalName")] "SomeInternalName"
      (by decide) rfl⟩,
   by decide,
   C3_display_name.2 Modinfo.default _
     [XmlEvent.elemStart "xml" [], XmlEvent.elemEmpty "Name" [("value", "Internal")]]
     [XmlEvent.elemEnd "xml"] [("value", "Official Mod Name")] "Official Mod Name"
     (by decide) (by decide) (by decide)⟩

/-! ### C5: missing `value` attribute -/

/-- When no attribute key lower-cases to `value`, the collected
attribute map has no `value` entry. -/
lemma attrLookup_value_none {attrs : List (String × String)}
    (h : ∀ kv ∈ attrs, lowerStr kv.1 ≠ "value") :
    attrLookup (parse_attributes attrs) "value" = none := by
  have hfind : (parse_attributes attrs).reverse.find? (fun kv => kv.1 = "value") = none := by
    rw [List.find?_eq_none]
    intro x hx
    rw [List.mem_reverse] at hx
    simp only [parse_attributes, List.mem_map] at hx
    obtain ⟨kv, hkv, rfl⟩ := hx
    simpa using h kv hkv
  simp [attrLookup, hfind]

/-- C5: a self-closing element none of whose attribute keys is `value`
(under any casing) makes the parse of the whole document fail — the
fold never returns a model — regardless of the element's name or
position. -/
theorem C5_missing_value_is_hard_failure (m : Modinfo) (as bs : List XmlEvent)
    (name : String) (attrs : List (String × String))
    (h : ∀ kv ∈ attrs, lowerStr kv.1 ≠ "value") :
    (fromEvents m (as ++ XmlEvent.elemEmpty name attrs :: bs)).toOption = none := by
  cases hres : fromEvents m (as ++ XmlEvent.elemEmpty name attrs :: bs) with
  | ok m' =>
    exfalso
    obtain ⟨m₁, _, h2⟩ := fromEvents_append_ok as m m' _ hres
    have hbad : processEvent m₁ (.elemEmpty name attrs) = .panic "missing-value-attribute" := by
      simp only [processEvent, attrLookup_value_none h]
    rw [fromEvents_cons_panic bs hbad] at h2
    exact Outcome.noConfusion h2
  | err e => rfl
  | panic p => rfl

/-- C5 witness: a document whose `Name` element carries an `id`
attribute but no `value` attribute fails as a whole. -/
theorem C5_witness :
    (∀ kv ∈ [("id", "x")], lowerStr kv.1 ≠ "value") ∧
    (fromEvents Modinfo.default
        ([XmlEvent.elemStart "xml" []] ++
          XmlEvent.elemEmpty "Name" [("id", "x")] :: [XmlEvent.elemEnd "xml"])).toOption =
      none :=
  ⟨by decide,
   C5_missing_value_is_hard_failure Modinfo.default [XmlEvent.elemStart "xml" []]
     [XmlEvent.elemEnd "xml"] "Name" [("id", "x")] (by decide)⟩

/-! ### C9: layout-dependent rendering -/

/-- C9: a V1 (legacy) model renders with no XML declaration and no
`DisplayName`/`Website` elements even when those fields are populated;
a V2 (current) model renders the declaration before the root open tag
and all six field elements. -/
theorem C9_layout_rendering (m : Modinfo) :
    (m.meta.version = .V1 →
      renderEvents m =
        [.elemStart "ModInfo" [],
         .elemEmpty "Name" [("value", m.name.value.getD "")],
         .elemEmpty "Version" (("value", m.get_version.render) ::
           (match m.version.compat with
            | some c => [("compat", c)]
            | none => [])),
         .elemEmpty "Description" [("value", m.description.value.getD "")],
         .elemEmpty "Author" [("value", m.author.value.getD "")],
         .elemEnd "ModInfo"]) ∧
    (m.meta.version = .V2 →
      renderEvents m =
        [.decl declContent,
         .elemStart "xml" [],
         .elemEmpty "Name" [("value", m.name.value.getD "")],
         .elemEmpty "DisplayName" [("value", m.display_name.value.getD "")],
         .elemEmpty "Version" (("value", m.get_version.render) ::
           (match m.version.compat with
            | some c => [("compat", c)]
            | none => [])),
         .elemEmpty "Description" [("value", m.description.value.getD "")],
         .elemEmpty "Author" [("value", m.author.value.getD "")],
         .elemEmpty "Website" [("value", m.website.value.getD "")],
         .elemEnd "xml"]) := by
  obtain ⟨a, d, dn, n, ver, w, mt⟩ := m
  obtain ⟨mv, pth⟩ := mt
  cases mv with
  | V1 => exact ⟨fun _ => rfl, fun hc => ModinfoVersion.noConfusion hc⟩
  | V2 => exact ⟨fun hc => ModinfoVersion.noConfusion hc, fun _ => rfl⟩

/-- C9 witness: a populated V1 model omits `DisplayName` and `Website`;
the V2 default emits the declaration and all six elements. -/
theorem C9_witness :
    renderEvents { author := ⟨some "A"⟩, description := ⟨some "D"⟩,
                   display_name := ⟨some "DN"⟩, name := ⟨some "N"⟩,
                   version := ⟨⟨1, 2, 3, "", ""⟩, some "A99"⟩, website := ⟨some "W"⟩,
                   meta := ⟨.V1, ""⟩ } =
      [.elemStart "ModInfo" [],
       .elemEmpty "Name" [("value", "N")],
       .elemEmpty "Version" [("value", "1.2.3"), ("compat", "A99")],
       .elemEmpty "Description" [("value", "D")],
       .elemEmpty "Author" [("value", "A")],
       .elemEnd "ModInfo"] ∧
    renderEvents Modinfo.new =
      [.decl declContent,
       .elemStart "xml" [],
       .elemEmpty "Name" [("value", "")],
       .elemEmpty "DisplayName" [("value", "")],
       .elemEmpty "Version" [("value", "0.1.0")],
       .elemEmpty "Description" [("value", "")],
       .elemEmpty "Author" [("value", "")],
       .elemEmpty "Website" [("value", "")],
       .elemEnd "xml"] :=
  ⟨(C9_layout_rendering { author := ⟨some "A"⟩, description := ⟨some "D"⟩,
                          display_name := ⟨some "DN"⟩, name := ⟨some "N"⟩,
                          version := ⟨⟨1, 2, 3, "", ""⟩, some "A99"⟩,
                          website := ⟨some "W"⟩, meta := ⟨.V1, ""⟩ }).1 rfl,
   (C9_layout_rendering Modinfo.new).2 rfl⟩

end Modinfo7dtd
